import Mathlib

/-!
Shallow embedding of the `postgresql_table` resource of
`terraform-provider-postgresql` (file `postgresql/resource_postgresql_table.go`).

Pure string building is translated to Lean functions; the database handle is
modelled as a record of response functions (`DB`), and every handler is a
function that, besides its Go return value, also returns the ordered list of
SQL statements it passed to `Exec` (the execution log).  The Terraform
`schema.ResourceData` dictionary is modelled by the `ResourceData` record:
`hasChangeName`/`hasChangeColumn` stand for `d.HasChange`, `oldName`/`oldColumn`
for the old halves of `d.GetChange`, `name`/`column` for the current declared
values, `id` for `d.Id()`, and `isNewResource` for `d.IsNewResource()`.
`errwrap.Wrapf("msg: {\x7b}err{\x7d}", err)` is modelled as string prefixing.
-/

namespace PgTable

/-- `pq.QuoteIdentifier`: wrap in double quotes, doubling inner double quotes. -/
def quoteIdentifier (s : String) : String :=
  "\"" ++ s.replace "\"" "\"\"" ++ "\""

/-- One entry of the `column` attribute list.  The Go code stores a column as a
`map[string]interface{}`; an `Option` field is `none` exactly when the
corresponding key is absent from the map. -/
structure Column where
  name : String
  type : String
  maxLength : Option Int
  defaultExpr : Option String
  isNull : Option Bool
  deriving DecidableEq

/-- `var typeAliases = map[string]string{"int4": "int"}` as a lookup function. -/
def typeAliases (s : String) : Option String :=
  if s = "int4" then some "int" else none

/-- `useTypeAlias`: replace a catalog-internal type name by its alias, if any. -/
def useTypeAlias (columnType : String) : String :=
  match typeAliases columnType with
  | some v => v
  | none => columnType

/-- `orDefault`: value of a nullable string, or the fallback. -/
def orDefault (data : Option String) (fallback : String) : String :=
  match data with
  | some s => s
  | none => fallback

/-- `parseIsNullable`: case-insensitive comparison against "yes". -/
def parseIsNullable (data : String) : Bool :=
  data.toLower = "yes"

/-- `buildColumnMaxLength`: `(<n>)` when the `max_length` key is present and
non-zero, else empty. -/
def buildColumnMaxLength (column : Column) : String :=
  match column.maxLength with
  | some maxLength => if maxLength ≠ 0 then "(" ++ toString maxLength ++ ")" else ""
  | none => ""

/-- `buildColumnDefault`: ` DEFAULT <expr>` when the `default` key is present
and non-empty, else empty. -/
def buildColumnDefault (column : Column) : String :=
  match column.defaultExpr with
  | some defaultExpr => if defaultExpr ≠ "" then " DEFAULT " ++ defaultExpr else ""
  | none => ""

/-- `buildColumnNotNull`: ` NOT NULL` when the `is_null` key is present with
value `false`, else empty. -/
def buildColumnNotNull (column : Column) : String :=
  match column.isNull with
  | some isNull => if isNull = false then " NOT NULL" else ""
  | none => ""

/-- The statement built inside `createColumn`:
`fmt.Sprintf("ALTER TABLE %s ADD COLUMN %s %s%s%s%s", tableName,
pq.QuoteIdentifier(columnName), columnType, ...)` — note the table name is
interpolated unquoted while the column name is quoted. -/
def createColumnSQL (tableName : String) (column : Column) : String :=
  "ALTER TABLE " ++ tableName ++ " ADD COLUMN " ++ quoteIdentifier column.name
    ++ " " ++ column.type
    ++ buildColumnMaxLength column
    ++ buildColumnDefault column
    ++ buildColumnNotNull column

/-- The statement built in `resourcePostgreSQLTableCreate`:
`fmt.Sprintf("CREATE TABLE %s ()", pq.QuoteIdentifier(tableName))`. -/
def createTableSQL (tableName : String) : String :=
  "CREATE TABLE " ++ quoteIdentifier tableName ++ " ()"

/-- The statement built in `renameTableIfNeeded`:
`fmt.Sprintf("ALTER TABLE %s RENAME TO %s", pq.QuoteIdentifier(old),
pq.QuoteIdentifier(new))`. -/
def renameSQL (oldName newName : String) : String :=
  "ALTER TABLE " ++ quoteIdentifier oldName ++ " RENAME TO " ++ quoteIdentifier newName

/-- `const tableExistsQuery`. -/
def tableExistsQuery : String :=
  "SELECT table_name FROM information_schema.tables WHERE table_schema='public' and table_name = $1"

/-- `const tableDescribeQuery` (textually identical to `tableExistsQuery`). -/
def tableDescribeQuery : String :=
  "SELECT table_name FROM information_schema.tables WHERE table_schema='public' and table_name = $1"

/-- `const columnsDescribeQuery` (Go raw string literal, tabs included). -/
def columnsDescribeQuery : String :=
  "\n\tSELECT \n\t\tcolumn_name as name, \n\t\tcolumn_default as default_expr,\n\t\tis_nullable,\n\t\tudt_name as column_type,\n\t\tcharacter_maximum_length as max_length\n\tFROM information_schema.columns \n\tWHERE table_name = $1\n\tORDER BY ordinal_position\n\t"

/-- Result of `db.QueryRow(query, arg).Scan(&tableName)`: no rows, some other
error, or one row holding the table name. -/
inductive RowResult where
  | noRows
  | rowErr (e : String)
  | row (tableName : String)
  deriving DecidableEq

/-- One raw row of the columns-describe query, as scanned by `columns`:
`(name string, default_expr NullString, is_nullable string, column_type string,
max_length NullInt64)`. -/
structure RawColRow where
  name : String
  defaultExpr : Option String
  isNullable : String
  colType : String
  maxLength : Option Int
  deriving DecidableEq

/-- Result of `db.Query(columnsDescribeQuery, tableName)` together with the
per-row outcome of `rows.Scan`: either the query itself failed, or it yielded
a list of rows each of which scans to a `RawColRow` or fails with an error. -/
inductive QueryOutcome where
  | queryFailed (e : String)
  | rowsOk (rows : List (Except String RawColRow))

/-- The database handle: a response function for `Exec` (`none` = success,
`some e` = error `e`), one for the single-row table queries, and one for the
columns query.  Handlers record every executed statement in a log. -/
structure DB where
  execResult : String → Option String
  tableRow : String → String → RowResult
  columnRows : String → String → QueryOutcome

/-- The Terraform state dictionary for one `postgresql_table` resource. -/
structure ResourceData where
  id : String
  name : String
  oldName : String
  column : List Column
  oldColumn : List Column
  hasChangeName : Bool
  hasChangeColumn : Bool
  isNewResource : Bool
  deriving DecidableEq

/-- Go return value of `columns`: the Go function returns
`([]interface{}, error)`, i.e. a (possibly partial) column list plus an
optional error; `panicked` models the nil-pointer dereference that
`rows.Next()` performs when `db.Query` failed (its error was discarded by
`rows, _ := db.Query(...)`, leaving `rows == nil`). -/
inductive ColumnsOutcome where
  | panicked
  | result (cols : List Column) (scanErr : Option String)
  deriving DecidableEq

/-- The column map built for one scanned row inside the loop of `columns`:
keys `name`, `type`, `is_null` are always set; `max_length` and `default`
only when the catalog value is non-null. -/
def rawToColumn (r : RawColRow) : Column :=
  { name := r.name
    type := useTypeAlias r.colType
    maxLength := r.maxLength
    defaultExpr := r.defaultExpr
    isNull := some (parseIsNullable r.isNullable) }

/-- The `for rows.Next()` loop of `columns`: scan each row; on a scan error
return the columns accumulated so far together with that error. -/
def columnsScan : List (Except String RawColRow) → List Column → ColumnsOutcome
  | [], acc => ColumnsOutcome.result acc none
  | Except.error e :: _, acc => ColumnsOutcome.result acc (some e)
  | Except.ok r :: rest, acc => columnsScan rest (acc ++ [rawToColumn r])

/-- `columns(db, tableName)`: `rows, _ := db.Query(columnsDescribeQuery,
tableName)` discards the query error; when the query failed, `rows` is nil and
`rows.Next()` panics, so the error never reaches the caller. -/
def columns (q : QueryOutcome) : ColumnsOutcome :=
  match q with
  | QueryOutcome.queryFailed _ => ColumnsOutcome.panicked
  | QueryOutcome.rowsOk rows => columnsScan rows []

/-- Result of a handler that may hit the `columns` nil-rows panic: either a
panic, or a normal Go return value. -/
inductive Outcome (α : Type) where
  | panicked
  | normal (a : α)
  deriving DecidableEq

/-- `resourcePostgreSQLTableReadImpl`: describe the table under the current
id; on no rows clear the id and return nil; on error wrap it; otherwise adopt
the observed name as attribute and id, read the columns and overwrite the
`column` attribute with the observed list. -/
def resourcePostgreSQLTableReadImpl (db : DB) (d : ResourceData) :
    Outcome (ResourceData × Except String Unit) :=
  match db.tableRow tableDescribeQuery d.id with
  | RowResult.noRows => Outcome.normal ({ d with id := "" }, Except.ok ())
  | RowResult.rowErr e =>
      Outcome.normal (d, Except.error ("Error reading TABLE (" ++ d.id ++ "): " ++ e))
  | RowResult.row tableName =>
      match columns (db.columnRows columnsDescribeQuery tableName) with
      | ColumnsOutcome.panicked => Outcome.panicked
      | ColumnsOutcome.result _cols (some e) =>
          Outcome.normal ({ d with name := tableName, id := tableName },
            Except.error ("Error reading columns TABLE (" ++ d.id ++ "): " ++ e))
      | ColumnsOutcome.result cols none =>
          Outcome.normal ({ d with name := tableName, id := tableName, column := cols },
            Except.ok ())

/-- `resourcePostgreSQLTableRead` minus the shared-mode lock (see the lock
model below): it just delegates to the read implementation. -/
def resourcePostgreSQLTableRead (db : DB) (d : ResourceData) :
    Outcome (ResourceData × Except String Unit) :=
  resourcePostgreSQLTableReadImpl db d

/-- `resourcePostgreSQLTableExists`: probe by id; `sql.ErrNoRows` becomes
`(false, nil)`, any other error is returned, a row means `(true, nil)`. -/
def resourcePostgreSQLTableExists (db : DB) (d : ResourceData) : Except String Bool :=
  match db.tableRow tableExistsQuery d.id with
  | RowResult.noRows => Except.ok false
  | RowResult.rowErr e => Except.error e
  | RowResult.row _ => Except.ok true

/-- `resourcePostgreSQLTableDelete`: clear the id and return nil.  The `db`
argument is unused — the handler executes no statement, so its log is empty
for every database. -/
def resourcePostgreSQLTableDelete (_db : DB) (d : ResourceData) :
    ResourceData × List String × Except String Unit :=
  ({ d with id := "" }, [], Except.ok ())

/-- `renameTableIfNeeded`: nothing when the `name` attribute has no change;
reject an empty new name before any SQL; otherwise execute the rename and, on
success, adopt the new name as id. -/
def renameTableIfNeeded (db : DB) (d : ResourceData) (log : List String) :
    (ResourceData × List String) × Except String Unit :=
  if d.hasChangeName = false then ((d, log), Except.ok ())
  else if d.name = "" then
    ((d, log), Except.error "Error setting table name to an empty string")
  else
    let sql := renameSQL d.oldName d.name
    match db.execResult sql with
    | some e => ((d, log ++ [sql]), Except.error ("Error updating table NAME: " ++ e))
    | none => (({ d with id := d.name }, log ++ [sql]), Except.ok ())

/-- `createColumn`: execute the add-column statement against the given table
name; wrap a failure. -/
def createColumn (db : DB) (tableName : String) (column : Column) (log : List String) :
    List String × Except String Unit :=
  let sql := createColumnSQL tableName column
  match db.execResult sql with
  | some e => (log ++ [sql], Except.error ("Error updating table NAME: " ++ e))
  | none => (log ++ [sql], Except.ok ())

/-- The `for i, newColumnRaw := range new` loop of `alterColumnsIfNeeded`:
index `i` is a new column iff `i >= len(old)`; then `createColumn` is called
with the current `d.Id()`, and its error aborts the loop. -/
def alterColumnsLoop (db : DB) (tid : String) (oldLen : Nat) :
    Nat → List Column → List String → List String × Except String Unit
  | _, [], log => (log, Except.ok ())
  | i, c :: cs, log =>
    if oldLen ≤ i then
      match createColumn db tid c log with
      | (log2, Except.error e) => (log2, Except.error e)
      | (log2, Except.ok _) => alterColumnsLoop db tid oldLen (i + 1) cs log2
    else alterColumnsLoop db tid oldLen (i + 1) cs log

/-- `alterColumnsIfNeeded`: nothing when the `column` attribute has no change;
otherwise run the positional loop over the new column list against the old
list length, addressing the table by the current `d.Id()`. -/
def alterColumnsIfNeeded (db : DB) (d : ResourceData) (log : List String) :
    List String × Except String Unit :=
  if d.hasChangeColumn = false then (log, Except.ok ())
  else alterColumnsLoop db d.id d.oldColumn.length 0 d.column log

/-- The emission decision of the loop in `alterColumnsIfNeeded`, separated
from execution: walking the new column list with a running index, record
`(i, newColumns[i])` exactly when `i >= len(old)`. -/
def columnsDiffAux (oldLen : Nat) : Nat → List Column → List (Nat × Column)
  | _, [] => []
  | i, c :: cs =>
    if oldLen ≤ i then (i, c) :: columnsDiffAux oldLen (i + 1) cs
    else columnsDiffAux oldLen (i + 1) cs

/-- The column differ: the operations emitted by `alterColumnsIfNeeded` for
`(old, new)`, starting at index 0. -/
def columnsDiff (olds news : List Column) : List (Nat × Column) :=
  columnsDiffAux olds.length 0 news

/-- Sequential executor for a list of emitted add-column operations: one
statement per column, in order, stopping at the first failure with the
wrapped error. -/
def applyAddColumns (db : DB) (tid : String) (log : List String) :
    List (Nat × Column) → List String × Except String Unit
  | [] => (log, Except.ok ())
  | (_, c) :: rest =>
    let sql := createColumnSQL tid c
    match db.execResult sql with
    | some e => (log ++ [sql], Except.error ("Error updating table NAME: " ++ e))
    | none => applyAddColumns db tid (log ++ [sql]) rest

/-- The add-column statements that `alterColumnsIfNeeded` would issue for the
declared change of `d`, in emission order. -/
def addStatements (d : ResourceData) : List String :=
  (columnsDiff d.oldColumn d.column).map (fun p => createColumnSQL d.id p.2)

/-- `resourcePostgreSQLTableUpdateImpl`: rename first (skipped for a new
resource), then the column loop, then the read-back; the first error aborts. -/
def resourcePostgreSQLTableUpdateImpl (db : DB) (d : ResourceData) (log : List String) :
    List String × Outcome (ResourceData × Except String Unit) :=
  match (if d.isNewResource then ((d, log), Except.ok ()) else renameTableIfNeeded db d log) with
  | ((d1, log1), Except.error e) => (log1, Outcome.normal (d1, Except.error e))
  | ((d1, log1), Except.ok _) =>
    match alterColumnsIfNeeded db d1 log1 with
    | (log2, Except.error e) => (log2, Outcome.normal (d1, Except.error e))
    | (log2, Except.ok _) => (log2, resourcePostgreSQLTableReadImpl db d1)

/-- `resourcePostgreSQLTableUpdate` minus the exclusive lock (see the lock
model below): it delegates to the update implementation. -/
def resourcePostgreSQLTableUpdate (db : DB) (d : ResourceData) :
    List String × Outcome (ResourceData × Except String Unit) :=
  resourcePostgreSQLTableUpdateImpl db d []

/-- `resourcePostgreSQLTableCreate`: execute `CREATE TABLE <quoted> ()`; on
failure return the wrapped error without touching the id; on success set the
id to the table name and run the update implementation. -/
def resourcePostgreSQLTableCreate (db : DB) (d : ResourceData) :
    List String × Outcome (ResourceData × Except String Unit) :=
  let sql := createTableSQL d.name
  match db.execResult sql with
  | some e =>
      ([sql], Outcome.normal (d, Except.error ("Error creating table " ++ d.name ++ ": " ++ e)))
  | none => resourcePostgreSQLTableUpdateImpl db { d with id := d.name } [sql]

/-!
Lock model for the process-wide `catalogLock` (a Go `sync.RWMutex` held on the
provider `Client`).  Each handler of the resource brackets its whole body in
one acquire/release pair; the mode per verb is read off the source
(`Lock`/`Unlock` in Create, Update, Delete; `RLock`/`RUnlock` in Read,
Exists).  A handler execution is a trace `acquire; actions…; release`; traces
of two handlers interleave, subject to reader/writer-lock validity.
-/

/-- Mode of one acquisition of the reader/writer lock. -/
inductive LockMode where
  | shared
  | exclusive
  deriving DecidableEq

/-- The five lifecycle verbs of the resource. -/
inductive Verb where
  | create
  | read
  | update
  | delete
  | existsCheck
  deriving DecidableEq

/-- Lock mode used by each handler, read off the source: `catalogLock.Lock()`
in Create, Update and Delete; `catalogLock.RLock()` in Read and Exists. -/
def lockMode : Verb → LockMode
  | Verb.create => LockMode.exclusive
  | Verb.update => LockMode.exclusive
  | Verb.delete => LockMode.exclusive
  | Verb.read => LockMode.shared
  | Verb.existsCheck => LockMode.shared

/-- One event of a two-operation schedule: operation `op` (one of two)
acquires, acts (introspection / DDL / read-back step), or releases. -/
inductive Event where
  | acq (op : Bool) (m : LockMode)
  | act (op : Bool)
  | rel (op : Bool) (m : LockMode)
  deriving DecidableEq

/-- Lock state for two operations: what each currently holds. -/
def LockState := Option LockMode × Option LockMode

/-- The mode currently held by `op`. -/
def holderOf (s : LockState) (op : Bool) : Option LockMode :=
  if op then s.2 else s.1

/-- Replace what `op` holds. -/
def setHolder (s : LockState) (op : Bool) (v : Option LockMode) : LockState :=
  if op then (s.1, v) else (v, s.2)

/-- Reader/writer admission: an exclusive acquire needs the other side free; a
shared acquire is blocked only by an exclusive holder. -/
def canAcquire (other : Option LockMode) (m : LockMode) : Bool :=
  match other, m with
  | none, _ => true
  | some _, LockMode.exclusive => false
  | some LockMode.exclusive, LockMode.shared => false
  | some LockMode.shared, LockMode.shared => true

/-- One step of the lock automaton; `none` means the event is inadmissible. -/
def lockStep (s : LockState) (e : Event) : Option LockState :=
  match e with
  | Event.acq op m =>
      if holderOf s op = none then
        if canAcquire (holderOf s (!op)) m then some (setHolder s op (some m)) else none
      else none
  | Event.act op => if (holderOf s op).isSome then some s else none
  | Event.rel op m => if holderOf s op = some m then some (setHolder s op none) else none

/-- A schedule is lock-valid from `s` when every event is admissible. -/
def lockValid (s : LockState) : List Event → Bool
  | [] => true
  | e :: t =>
    match lockStep s e with
    | some s2 => lockValid s2 t
    | none => false

/-- The trace of one handler running verb `v` as operation `op` with `n` body
steps: acquire in the verb's mode, the body, release — the whole body is one
critical section. -/
def handlerTrace (op : Bool) (v : Verb) (n : Nat) : List Event :=
  Event.acq op (lockMode v) :: (List.replicate n (Event.act op) ++ [Event.rel op (lockMode v)])

/-- `Interleaving xs ys zs`: `zs` is an order-preserving merge of `xs` and
`ys` — the schedules a concurrent execution of the two handlers can produce. -/
inductive Interleaving : List Event → List Event → List Event → Prop where
  | nil : Interleaving [] [] []
  | left {e : Event} {xs ys zs : List Event} :
      Interleaving xs ys zs → Interleaving (e :: xs) ys (e :: zs)
  | right {e : Event} {xs ys zs : List Event} :
      Interleaving xs ys zs → Interleaving xs (e :: ys) (e :: zs)

/-- The add-column statement as the specification words it, for comparison
with `createColumnSQL`: table name unquoted, column name quoted, `(<n>)` when
`maxLength` is present and non-zero, ` DEFAULT <expr>` when `defaultExpr` is
present and non-empty, and ` NOT NULL` exactly when the nullable flag — which
defaults to `false` when not explicitly set — is false. -/
def addColumnSQLSpec (tableName : String) (c : Column) : String :=
  "ALTER TABLE " ++ tableName ++ " ADD COLUMN " ++ quoteIdentifier c.name ++ " " ++ c.type
    ++ (match c.maxLength with
        | some n => if n ≠ 0 then "(" ++ toString n ++ ")" else ""
        | none => "")
    ++ (match c.defaultExpr with
        | some s => if s ≠ "" then " DEFAULT " ++ s else ""
        | none => "")
    ++ (if c.isNull.getD false = false then " NOT NULL" else "")

/-! Concrete fixtures used by the witness theorems. -/

def colId : Column :=
  { name := "id", type := "int", maxLength := none, defaultExpr := none, isNull := some false }

def colEmail : Column :=
  { name := "email", type := "text", maxLength := none, defaultExpr := none, isNull := some false }

def colDesc : Column :=
  { name := "description", type := "varchar", maxLength := some 255, defaultExpr := some "0",
    isNull := some false }

def dRename : ResourceData :=
  { id := "a", name := "b", oldName := "a", column := [colId], oldColumn := [colId],
    hasChangeName := true, hasChangeColumn := false, isNewResource := false }

def dEmptyName : ResourceData :=
  { dRename with name := "" }

def dAddCols : ResourceData :=
  { id := "items", name := "items", oldName := "items", column := [colId], oldColumn := [],
    hasChangeName := false, hasChangeColumn := true, isNewResource := false }

def dbAllOk : DB :=
  { execResult := fun _ => none, tableRow := fun _ _ => RowResult.row "b",
    columnRows := fun _ _ => QueryOutcome.rowsOk [] }

def dbNoRows : DB :=
  { execResult := fun _ => none, tableRow := fun _ _ => RowResult.noRows,
    columnRows := fun _ _ => QueryOutcome.rowsOk [] }

def dbFailAll : DB :=
  { execResult := fun _ => some "boom", tableRow := fun _ _ => RowResult.noRows,
    columnRows := fun _ _ => QueryOutcome.rowsOk [] }

/-! Theorems. -/

/-- C2: the rendered add-column statement is exactly
`ALTER TABLE <name> ADD COLUMN <quoted-column-name> <type>` followed by
`(<n>)` iff `max_length` is present and non-zero, ` DEFAULT <expr>` iff
`default` is present and non-empty, and ` NOT NULL` iff `is_null` is false;
the column name is identifier-quoted while the table name is unquoted.  The
hypothesis reflects that the schema materialises `is_null` with default
`false`, so the key is always present in the column map. -/
theorem c2_add_column_rendering (tableName : String) (c : Column)
    (h : c.isNull.isSome = true) :
    createColumnSQL tableName c = addColumnSQLSpec tableName c := by
  cases hb : c.isNull with
  | none => rw [hb] at h; simp at h
  | some b =>
    cases b <;>
      simp [createColumnSQL, addColumnSQLSpec, buildColumnMaxLength, buildColumnDefault,
        buildColumnNotNull, hb]

theorem c2_witness :
    (colDesc.isNull.isSome = true)
    ∧ createColumnSQL "items" colDesc = addColumnSQLSpec "items" colDesc :=
  ⟨rfl, c2_add_column_rendering "items" colDesc rfl⟩

/-- C4: an update that changes the name to the empty string fails with the
validation error before issuing any SQL — the log stays empty and the
returned state (in particular the id) is unchanged. -/
theorem c4_empty_rename_rejected (db : DB) (d : ResourceData)
    (h1 : d.isNewResource = false) (h2 : d.hasChangeName = true) (h3 : d.name = "") :
    resourcePostgreSQLTableUpdateImpl db d [] =
      ([], Outcome.normal (d, Except.error "Error setting table name to an empty string")) := by
  simp [resourcePostgreSQLTableUpdateImpl, renameTableIfNeeded, h1, h2, h3]

theorem c4_witness :
    resourcePostgreSQLTableUpdateImpl dbAllOk dEmptyName [] =
      ([], Outcome.normal (dEmptyName,
        Except.error "Error setting table name to an empty string")) :=
  c4_empty_rename_rejected dbAllOk dEmptyName rfl rfl rfl

/-- C5: a catalog probe returning no rows is not an error: Exists answers
`(false, nil)`, and Read clears the identifier and returns nil without
touching any other attribute. -/
theorem c5_not_found_not_error (db : DB) (d : ResourceData)
    (h : db.tableRow tableDescribeQuery d.id = RowResult.noRows) :
    resourcePostgreSQLTableReadImpl db d = Outcome.normal ({ d with id := "" }, Except.ok ())
    ∧ resourcePostgreSQLTableExists db d = Except.ok false := by
  constructor
  · simp [resourcePostgreSQLTableReadImpl, h]
  · have h2 : db.tableRow tableExistsQuery d.id = RowResult.noRows := h
    simp [resourcePostgreSQLTableExists, h2]

theorem c5_witness :
    resourcePostgreSQLTableReadImpl dbNoRows dRename =
      Outcome.normal ({ dRename with id := "" }, Except.ok ())
    ∧ resourcePostgreSQLTableExists dbNoRows dRename = Except.ok false :=
  c5_not_found_not_error dbNoRows dRename rfl

/-- C6: Delete is logical-only — for every database and state it clears the
id, executes no SQL statement, and returns success. -/
theorem c6_delete_logical_only (db : DB) (d : ResourceData) :
    resourcePostgreSQLTableDelete db d = ({ d with id := "" }, [], Except.ok ()) := rfl

/-- C8: the claim says a failing columns query propagates its error to the
caller; in the code the error of `db.Query` is discarded (`rows, _ :=`) and
the nil rows handle is then iterated, so the error is never returned. -/
theorem c8_columns_query_error_swallowed :
    columns (QueryOutcome.queryFailed "connection refused") = ColumnsOutcome.panicked := rfl

/-- C10: when the CREATE TABLE statement fails, Create returns the wrapped
error naming the table, the id is never set, and no further DDL is attempted
(the log holds only the failed create statement). -/
theorem c10_create_failure_atomic (db : DB) (d : ResourceData) (e : String)
    (h : db.execResult (createTableSQL d.name) = some e) :
    resourcePostgreSQLTableCreate db d =
      ([createTableSQL d.name],
        Outcome.normal (d, Except.error ("Error creating table " ++ d.name ++ ": " ++ e))) := by
  simp [resourcePostgreSQLTableCreate, h]

lemma columnsDiffAux_enumFrom (oldLen : Nat) :
    ∀ (cs : List Column) (i : Nat),
      columnsDiffAux oldLen i cs = List.enumFrom (max i oldLen) (cs.drop (oldLen - i)) := by
  intro cs
  induction cs with
  | nil => intro i; simp [columnsDiffAux]
  | cons c cs ih =>
    intro i
    by_cases h : oldLen ≤ i
    · have h1 : oldLen - i = 0 := by omega
      have h2 : oldLen - (i + 1) = 0 := by omega
      have h3 : max i oldLen = i := by omega
      have h4 : max (i + 1) oldLen = i + 1 := by omega
      rw [columnsDiffAux, if_pos h, ih (i + 1), h2, h1, h3, h4]
      simp [List.enumFrom]
    · have h1 : max i oldLen = oldLen := by omega
      have h2 : max (i + 1) oldLen = oldLen := by omega
      have h3 : oldLen - i = (oldLen - (i + 1)) + 1 := by omega
      rw [columnsDiffAux, if_neg h, ih (i + 1), h1, h2, h3, List.drop_succ_cons]

lemma mem_enumFrom_shape {α : Type} :
    ∀ (l : List α) (n : Nat) (p : Nat × α),
      p ∈ List.enumFrom n l → n ≤ p.1 ∧ l[p.1 - n]? = some p.2 := by
  intro l
  induction l with
  | nil => intro n p h; simp [List.enumFrom] at h
  | cons c cs ih =>
    intro n p h
    rw [show List.enumFrom n (c :: cs) = (n, c) :: List.enumFrom (n + 1) cs from rfl,
      List.mem_cons] at h
    rcases h with h | h
    · subst h
      refine ⟨Nat.le_refl n, ?_⟩
      rw [Nat.sub_self]
      simp
    · obtain ⟨h1, h2⟩ := ih (n + 1) p h
      refine ⟨by omega, ?_⟩
      have h3 : p.1 - n = (p.1 - (n + 1)) + 1 := by omega
      rw [h3, List.getElem?_cons_succ]
      exact h2

lemma enumFrom_pairwise_lt {α : Type} :
    ∀ (l : List α) (n : Nat),
      List.Pairwise (fun p q => p.1 < q.1) (List.enumFrom n l) := by
  intro l
  induction l with
  | nil => intro n; exact List.Pairwise.nil
  | cons c cs ih =>
    intro n
    rw [show List.enumFrom n (c :: cs) = (n, c) :: List.enumFrom (n + 1) cs from rfl]
    refine List.Pairwise.cons ?_ (ih (n + 1))
    intro q hq
    have := (mem_enumFrom_shape cs (n + 1) q hq).1
    omega

/-- C1: the column differ is append-only and strictly positional — it emits
exactly the pairs `(i, newColumns[i])` for the indices `i ≥ length old`, in
increasing index order, and nothing for any index below `length old`; in
particular a shorter-or-equal new list (a removal or a same-length
reordering) emits no operation at all. -/
theorem c1_differ_append_only (olds news : List Column) :
    columnsDiff olds news = List.enumFrom olds.length (news.drop olds.length)
    ∧ (∀ i c, (i, c) ∈ columnsDiff olds news → olds.length ≤ i ∧ news[i]? = some c)
    ∧ List.Pairwise (fun p q => p.1 < q.1) (columnsDiff olds news)
    ∧ (news.length ≤ olds.length → columnsDiff olds news = []) := by
  have hmain : columnsDiff olds news = List.enumFrom olds.length (news.drop olds.length) := by
    rw [columnsDiff, columnsDiffAux_enumFrom olds.length news 0, Nat.sub_zero,
      Nat.max_eq_right (Nat.zero_le olds.length)]
  refine ⟨hmain, ?_, ?_, ?_⟩
  · intro i c hm
    rw [hmain] at hm
    obtain ⟨h1, h2⟩ := mem_enumFrom_shape _ _ _ hm
    refine ⟨h1, ?_⟩
    rw [List.getElem?_drop] at h2
    have h3 : olds.length + (i - olds.length) = i := by omega
    rw [h3] at h2
    exact h2
  · rw [hmain]
    exact enumFrom_pairwise_lt _ _
  · intro hle
    rw [hmain, List.drop_eq_nil_of_le hle]
    rfl

theorem c1_witness :
    columnsDiff [colId] [colId, colEmail] = [(1, colEmail)]
    ∧ columnsDiff [colId, colEmail] [colId] = []
    ∧ columnsDiff [colId, colEmail] [colEmail, colId] = [] :=
  ⟨by rw [(c1_differ_append_only [colId] [colId, colEmail]).1]; rfl,
    (c1_differ_append_only [colId, colEmail] [colId]).2.2.2 (by decide),
    (c1_differ_append_only [colId, colEmail] [colEmail, colId]).2.2.2 (by decide)⟩

lemma alterColumnsLoop_eq_apply (db : DB) (tid : String) (oldLen : Nat) :
    ∀ (cs : List Column) (i : Nat) (log : List String),
      alterColumnsLoop db tid oldLen i cs log =
        applyAddColumns db tid log (columnsDiffAux oldLen i cs) := by
  intro cs
  induction cs with
  | nil => intro i log; rfl
  | cons c cs ih =>
    intro i log
    by_cases h : oldLen ≤ i
    · rw [alterColumnsLoop, if_pos h, columnsDiffAux, if_pos h]
      cases hex : db.execResult (createColumnSQL tid c) with
      | some e => simp [createColumn, applyAddColumns, hex]
      | none => simp [createColumn, applyAddColumns, hex, ih]
    · rw [alterColumnsLoop, if_neg h, columnsDiffAux, if_neg h]
      exact ih (i + 1) log

lemma applyAddColumns_first_failure (db : DB) (tid : String) :
    ∀ (adds : List (Nat × Column)) (k : Nat) (log : List String) (s e : String),
      (adds.map (fun p => createColumnSQL tid p.2))[k]? = some s →
      db.execResult s = some e →
      (∀ j t2, j < k → (adds.map (fun p => createColumnSQL tid p.2))[j]? = some t2 →
        db.execResult t2 = none) →
      applyAddColumns db tid log adds =
        (log ++ (adds.map (fun p => createColumnSQL tid p.2)).take (k + 1),
          Except.error ("Error updating table NAME: " ++ e)) := by
  intro adds
  induction adds with
  | nil => intro k log s e hs; simp at hs
  | cons p rest ih =>
    obtain ⟨n, c⟩ := p
    intro k log s e hs hf hok
    cases k with
    | zero =>
      have hs0 : createColumnSQL tid c = s := by simpa using hs
      rw [applyAddColumns]
      rw [hs0, hf]
      simp [hs0]
    | succ k2 =>
      have h0 : db.execResult (createColumnSQL tid c) = none := by
        apply hok 0 (createColumnSQL tid c) (Nat.succ_pos k2)
        simp
      rw [applyAddColumns, h0]
      have hs2 : (rest.map (fun p => createColumnSQL tid p.2))[k2]? = some s := by
        simpa using hs
      have hok2 : ∀ j t2, j < k2 →
          (rest.map (fun p => createColumnSQL tid p.2))[j]? = some t2 →
          db.execResult t2 = none := by
        intro j t2 hj ht
        exact hok (j + 1) t2 (by omega) (by simpa using ht)
      rw [ih k2 (log ++ [createColumnSQL tid c]) s e hs2 hf hok2]
      simp

/-- C7: column additions are one separate statement per emitted column, in
declared order; when the k-th add-column statement fails (all earlier ones
succeeding), the operation aborts with the wrapped error, the log holds
exactly the first k+1 statements — the earlier ones stay applied, nothing is
rolled back — and no later statement is attempted. -/
theorem c7_per_column_abort (db : DB) (d : ResourceData) (k : Nat) (s e : String)
    (h0 : d.hasChangeColumn = true)
    (hs : (addStatements d)[k]? = some s)
    (hf : db.execResult s = some e)
    (hok : ∀ j t2, j < k → (addStatements d)[j]? = some t2 → db.execResult t2 = none) :
    alterColumnsIfNeeded db d [] =
      ((addStatements d).take (k + 1), Except.error ("Error updating table NAME: " ++ e)) := by
  rw [alterColumnsIfNeeded, if_neg (by simp [h0]), alterColumnsLoop_eq_apply]
  have h1 := applyAddColumns_first_failure db d.id (columnsDiff d.oldColumn d.column) k [] s e
    (by exact hs) hf (by exact hok)
  rw [columnsDiff] at h1
  rw [h1]
  simp [addStatements, columnsDiff]

theorem c7_witness :
    alterColumnsIfNeeded dbFailAll dAddCols [] =
      ((addStatements dAddCols).take 1, Except.error ("Error updating table NAME: " ++ "boom")) :=
  c7_per_column_abort dbFailAll dAddCols 0 (createColumnSQL "items" colId) "boom" rfl rfl rfl
    (fun j _t2 hj _ => absurd hj (Nat.not_lt_zero j))

lemma alterColumnsLoop_log_shape (db : DB) (tid : String) (oldLen : Nat) :
    ∀ (cs : List Column) (i : Nat) (log : List String),
      ∃ delta, (alterColumnsLoop db tid oldLen i cs log).1 = log ++ delta
        ∧ ∀ s ∈ delta, ∃ c, c ∈ cs ∧ s = createColumnSQL tid c := by
  intro cs
  induction cs with
  | nil => intro i log; exact ⟨[], by simp [alterColumnsLoop], by simp⟩
  | cons c cs ih =>
    intro i log
    by_cases h : oldLen ≤ i
    · cases hex : db.execResult (createColumnSQL tid c) with
      | some e =>
        refine ⟨[createColumnSQL tid c], ?_, ?_⟩
        · simp [alterColumnsLoop, if_pos h, createColumn, hex]
        · intro s hs
          rw [List.mem_singleton] at hs
          exact ⟨c, List.mem_cons_self c cs, hs⟩
      | none =>
        obtain ⟨delta, hd1, hd2⟩ := ih (i + 1) (log ++ [createColumnSQL tid c])
        refine ⟨createColumnSQL tid c :: delta, ?_, ?_⟩
        · simp [alterColumnsLoop, if_pos h, createColumn, hex, hd1]
        · intro s hs
          rcases List.mem_cons.mp hs with h5 | h5
          · exact ⟨c, List.mem_cons_self c cs, h5⟩
          · obtain ⟨c2, hc2, hs2⟩ := hd2 s h5
            exact ⟨c2, List.mem_cons_of_mem c hc2, hs2⟩
    · obtain ⟨delta, hd1, hd2⟩ := ih (i + 1) log
      refine ⟨delta, ?_, ?_⟩
      · rw [alterColumnsLoop, if_neg h]
        exact hd1
      · intro s hs
        obtain ⟨c2, hc2, hs2⟩ := hd2 s hs
        exact ⟨c2, List.mem_cons_of_mem c hc2, hs2⟩

lemma alterColumnsIfNeeded_log_shape (db : DB) (d : ResourceData) (log : List String) :
    ∃ delta, (alterColumnsIfNeeded db d log).1 = log ++ delta
      ∧ ∀ s ∈ delta, ∃ c, c ∈ d.column ∧ s = createColumnSQL d.id c := by
  by_cases h : d.hasChangeColumn = false
  · rw [alterColumnsIfNeeded, if_pos h]
    exact ⟨[], by simp, by simp⟩
  · rw [alterColumnsIfNeeded, if_neg h]
    exact alterColumnsLoop_log_shape db d.id d.oldColumn.length d.column 0 log

/-- C3: within an Update that is not the initial creation and whose name
changed, the rename statement is executed strictly before any add-column
statement, the identifier is set to the new name, every add-column statement
addresses the table by that new (just-renamed) identifier, and on success the
returned state is exactly what reading the catalog back under the new
identifier observes. -/
theorem c3_rename_before_columns (db : DB) (d : ResourceData)
    (h1 : d.isNewResource = false) (h2 : d.hasChangeName = true) (h3 : d.name ≠ "")
    (h4 : db.execResult (renameSQL d.oldName d.name) = none) :
    ∃ tail,
      (resourcePostgreSQLTableUpdateImpl db d []).1 = renameSQL d.oldName d.name :: tail
      ∧ (∀ s ∈ tail, ∃ c, c ∈ d.column ∧ s = createColumnSQL d.name c)
      ∧ (∀ d2, (resourcePostgreSQLTableUpdateImpl db d []).2 =
            Outcome.normal (d2, Except.ok ()) →
          resourcePostgreSQLTableReadImpl db { d with id := d.name } =
            Outcome.normal (d2, Except.ok ())) := by
  have hrn : renameTableIfNeeded db d [] =
      (({ d with id := d.name }, [renameSQL d.oldName d.name]), Except.ok ()) := by
    simp [renameTableIfNeeded, h2, h3, h4]
  obtain ⟨delta, hlog, hdelta⟩ :=
    alterColumnsIfNeeded_log_shape db { d with id := d.name } [renameSQL d.oldName d.name]
  cases halt : alterColumnsIfNeeded db { d with id := d.name } [renameSQL d.oldName d.name] with
  | mk log2 r =>
    rw [halt] at hlog
    have hlog2 : log2 = renameSQL d.oldName d.name :: delta := by simpa using hlog
    rw [h1] at halt
    cases r with
    | error e =>
      have hu : resourcePostgreSQLTableUpdateImpl db d [] =
          (log2, Outcome.normal ({ d with id := d.name }, Except.error e)) := by
        simp [resourcePostgreSQLTableUpdateImpl, h1, hrn, halt]
      refine ⟨delta, ?_, ?_, ?_⟩
      · rw [hu]
        exact hlog2
      · intro s hs
        exact hdelta s hs
      · intro d2 h5
        rw [hu] at h5
        simp at h5
    | ok u =>
      cases u
      have hu : resourcePostgreSQLTableUpdateImpl db d [] =
          (log2, resourcePostgreSQLTableReadImpl db { d with id := d.name }) := by
        simp [resourcePostgreSQLTableUpdateImpl, h1, hrn, halt]
      refine ⟨delta, ?_, ?_, ?_⟩
      · rw [hu]
        exact hlog2
      · intro s hs
        exact hdelta s hs
      · intro d2 h5
        rw [hu] at h5
        exact h5

theorem c3_witness :
    ∃ tail,
      (resourcePostgreSQLTableUpdateImpl dbAllOk dRename []).1 =
          renameSQL dRename.oldName dRename.name :: tail
      ∧ (∀ s ∈ tail, ∃ c, c ∈ dRename.column ∧ s = createColumnSQL dRename.name c)
      ∧ (∀ d2, (resourcePostgreSQLTableUpdateImpl dbAllOk dRename []).2 =
            Outcome.normal (d2, Except.ok ()) →
          resourcePostgreSQLTableReadImpl dbAllOk { dRename with id := dRename.name } =
            Outcome.normal (d2, Except.ok ())) :=
  c3_rename_before_columns dbAllOk dRename rfl rfl (by decide) rfl

theorem c10_witness :
    resourcePostgreSQLTableCreate dbFailAll dRename =
      ([createTableSQL dRename.name],
        Outcome.normal (dRename,
          Except.error ("Error creating table " ++ dRename.name ++ ": " ++ "boom"))) :=
  c10_create_failure_atomic dbFailAll dRename "boom" rfl

lemma holderOf_init (op : Bool) : holderOf ((none, none) : LockState) op = none := by
  cases op <;> rfl

lemma holderOf_setHolder_same (s : LockState) (op : Bool) (v : Option LockMode) :
    holderOf (setHolder s op v) op = v := by
  cases op <;> rfl

lemma holderOf_setHolder_not (s : LockState) (op : Bool) (v : Option LockMode) :
    holderOf (setHolder s op v) (!op) = holderOf s (!op) := by
  cases op <;> rfl

lemma canAcquire_block (m0 m1 : LockMode)
    (h : m0 = LockMode.exclusive ∨ m1 = LockMode.exclusive) :
    canAcquire (some m0) m1 = false := by
  rcases h with h | h
  · subst h; cases m1 <;> rfl
  · subst h; cases m0 <;> rfl

lemma lockStep_first_acq (who : Bool) (m : LockMode) :
    lockStep ((none, none) : LockState) (Event.acq who m) =
      some (setHolder (none, none) who (some m)) := by
  simp only [lockStep, holderOf_init]
  simp [show canAcquire none m = true from rfl]

lemma lockStep_acq_blocked (who : Bool) (m0 m1 : LockMode)
    (h : m0 = LockMode.exclusive ∨ m1 = LockMode.exclusive) :
    lockStep (setHolder (none, none) who (some m0)) (Event.acq (!who) m1) = none := by
  simp only [lockStep]
  rw [holderOf_setHolder_not, holderOf_init, if_pos rfl, Bool.not_not,
    holderOf_setHolder_same, canAcquire_block m0 m1 h]
  simp

lemma lockStep_act_held (who : Bool) (m0 : LockMode) :
    lockStep (setHolder (none, none) who (some m0)) (Event.act who) =
      some (setHolder (none, none) who (some m0)) := by
  simp only [lockStep]
  rw [holderOf_setHolder_same]
  simp

lemma interleaving_nil_left {ys zs : List Event} (h : Interleaving [] ys zs) : zs = ys := by
  have h2 : ∀ xs ys2 zs2, Interleaving xs ys2 zs2 → xs = [] → zs2 = ys2 := by
    intro xs ys2 zs2 hI
    induction hI with
    | nil => intro; rfl
    | left h3 ih => intro hx; exact (List.cons_ne_nil _ _ hx).elim
    | right h3 ih => intro hx; rw [ih hx]
  exact h2 [] ys zs h rfl

lemma interleaving_symm {xs ys zs : List Event} (h : Interleaving xs ys zs) :
    Interleaving ys xs zs := by
  induction h with
  | nil => exact Interleaving.nil
  | left h2 ih => exact Interleaving.right ih
  | right h2 ih => exact Interleaving.left ih

lemma interleaving_append : ∀ (xs ys : List Event), Interleaving xs ys (xs ++ ys) := by
  intro xs ys
  induction xs with
  | nil =>
    induction ys with
    | nil => exact Interleaving.nil
    | cons y ys ih => exact Interleaving.right ih
  | cons x xs ih => exact Interleaving.left ih

lemma drain (who : Bool) (m0 m1 : LockMode)
    (hblock : m0 = LockMode.exclusive ∨ m1 = LockMode.exclusive) :
    ∀ (k : Nat) (rest1 t : List Event),
      Interleaving (List.replicate k (Event.act who) ++ [Event.rel who m0])
        (Event.acq (!who) m1 :: rest1) t →
      lockValid (setHolder (none, none) who (some m0)) t = true →
      t = (List.replicate k (Event.act who) ++ [Event.rel who m0])
            ++ (Event.acq (!who) m1 :: rest1) := by
  intro k
  induction k with
  | zero =>
    intro rest1 t hint hv
    rw [List.replicate_zero, List.nil_append] at hint ⊢
    cases hint with
    | left h2 =>
      rw [interleaving_nil_left h2]
      rfl
    | right h2 =>
      exfalso
      have hstep := lockStep_acq_blocked who m0 m1 hblock
      simp only [lockValid, hstep] at hv
      exact Bool.false_ne_true hv
  | succ k2 ih =>
    intro rest1 t hint hv
    rw [List.replicate_succ, List.cons_append] at hint
    cases hint with
    | left h2 =>
      have hstep := lockStep_act_held who m0
      simp only [lockValid, hstep] at hv
      have h3 := ih rest1 _ h2 hv
      rw [List.replicate_succ, List.cons_append, List.cons_append, h3]
    | right h2 =>
      exfalso
      have hstep := lockStep_acq_blocked who m0 m1 hblock
      simp only [lockValid, hstep] at hv
      exact Bool.false_ne_true hv

/-- C9: per the source, Create, Update and Delete take the catalog lock
exclusively and Read and Exists take it in shared mode, each for the whole
handler body; consequently, any lock-valid interleaving of two handler
executions at least one of which is mutating (exclusive) is one of the two
sequential orders — their bodies never interleave, so two mutating handlers
never interleave DDL and a read never observes a partially-applied
mutation. -/
theorem c9_lock_serialization (v1 v2 : Verb) (a b : Nat) (t : List Event)
    (hex : lockMode v1 = LockMode.exclusive ∨ lockMode v2 = LockMode.exclusive)
    (hint : Interleaving (handlerTrace false v1 a) (handlerTrace true v2 b) t)
    (hv : lockValid ((none, none) : LockState) t = true) :
    (lockMode Verb.create = LockMode.exclusive ∧ lockMode Verb.update = LockMode.exclusive
      ∧ lockMode Verb.delete = LockMode.exclusive ∧ lockMode Verb.read = LockMode.shared
      ∧ lockMode Verb.existsCheck = LockMode.shared)
    ∧ (t = handlerTrace false v1 a ++ handlerTrace true v2 b
        ∨ t = handlerTrace true v2 b ++ handlerTrace false v1 a) := by
  refine ⟨⟨rfl, rfl, rfl, rfl, rfl⟩, ?_⟩
  rw [handlerTrace, handlerTrace] at hint
  cases hint with
  | left h2 =>
    left
    have hstep := lockStep_first_acq false (lockMode v1)
    simp only [lockValid, hstep] at hv
    have h3 := drain false (lockMode v1) (lockMode v2) hex a _ _ h2 hv
    rw [handlerTrace, handlerTrace, h3]
    rfl
  | right h2 =>
    right
    have hstep := lockStep_first_acq true (lockMode v2)
    simp only [lockValid, hstep] at hv
    have h3 := drain true (lockMode v2) (lockMode v1) (Or.symm hex) b _ _
      (interleaving_symm h2) hv
    rw [handlerTrace, handlerTrace, h3]
    rfl

theorem c9_witness :
    (lockMode Verb.create = LockMode.exclusive ∧ lockMode Verb.update = LockMode.exclusive
      ∧ lockMode Verb.delete = LockMode.exclusive ∧ lockMode Verb.read = LockMode.shared
      ∧ lockMode Verb.existsCheck = LockMode.shared)
    ∧ (handlerTrace false Verb.update 1 ++ handlerTrace true Verb.read 1 =
          handlerTrace false Verb.update 1 ++ handlerTrace true Verb.read 1
        ∨ handlerTrace false Verb.update 1 ++ handlerTrace true Verb.read 1 =
          handlerTrace true Verb.read 1 ++ handlerTrace false Verb.update 1) :=
  c9_lock_serialization Verb.update Verb.read 1 1
    (handlerTrace false Verb.update 1 ++ handlerTrace true Verb.read 1)
    (Or.inl rfl)
    (interleaving_append (handlerTrace false Verb.update 1) (handlerTrace true Verb.read 1))
    (by decide)

end PgTable
